import Mathlib

/-!
# Verification of the Image Studio job-queue and batch-worker subsystem

Shallow embedding of `app/services/image_studio_queue.py` and
`app/services/image_studio_worker.py`.

Modelling conventions:
* Python strings are Lean `String`s; where Python manipulates characters
  (split / strip / rfind) we compute structurally on `String.data` so that
  all definitions evaluate inside the kernel.
* Python `time.time()` stamps are abstract `Nat` parameters.
* A `threading.Event` is modelled by the `Bool` "is set" state.
* A runner (an arbitrary Python callable) is modelled by its observable
  outcome: a returned value, a raised `CancelledError`, or any other
  exception (`RunnerOutcome`).
* `None`-able Python values are `Option`s; Python's truthiness-based
  `x or y` on strings is `pyOr`.
-/

/-- Python `x or default` for an optional string: `None` and `""` are falsy. -/
def pyOr (o : Option String) (d : String) : String :=
  match o with
  | some s => if s = "" then d else s
  | none => d

/-- Python's single-character `str.split(sep)` on the code-point list:
`"".split(sep) == [""]`, separators produce empty segments. -/
def splitOnChar (sep : Char) : List Char → List (List Char)
  | [] => [[]]
  | c :: rest =>
    match splitOnChar sep rest with
    | [] => [[c]]
    | g :: gs => if c = sep then [] :: g :: gs else (c :: g) :: gs

/-- Index of the last occurrence of `t` (Python `str.rfind`, `none` for -1). -/
def rfindPos : List Char → Char → Option Nat
  | [], _ => none
  | c :: cs, t =>
    match rfindPos cs t with
    | some i => some (i + 1)
    | none => if c = t then some 0 else none

/-- Python `str.strip()` (whitespace at both ends removed), structurally on
the code-point list. -/
def pyStrip (s : String) : String :=
  ⟨((s.data.dropWhile Char.isWhitespace).reverse.dropWhile Char.isWhitespace).reverse⟩

/-! ## `image_studio_queue.py` -/

/-- The five status strings a job record can carry. -/
inductive Status where
  | queued
  | running
  | success
  | failed
  | cancelled
deriving DecidableEq, Repr

/-- The literal status string stored in the job dict. -/
def statusStr : Status → String
  | .queued => "queued"
  | .running => "running"
  | .success => "success"
  | .failed => "failed"
  | .cancelled => "cancelled"

/-- `status in {"success", "failed", "cancelled"}` (the terminal set tested
by `JobQueue.cancel`). -/
def Status.isTerminal : Status → Bool
  | .success => true
  | .failed => true
  | .cancelled => true
  | _ => false

/-- The job dict built by `JobQueue.enqueue`.  `result` holds the runner's
return value (opaque to the queue, modelled as a `String`); `options` is an
opaque payload. -/
structure Job where
  id : String
  mode : String
  sku : String
  stem : String
  lane : String
  prompt : Option String
  options : List (String × String)
  status : Status
  cancel_requested : Bool
  created_at : Nat
  started_at : Option Nat
  finished_at : Option Nat
  result : Option String
  error : Option String
  log_available : Bool
  log_truncated : Bool
  log_path : Option String
  log_bytes : Nat
deriving DecidableEq, Repr

/-- `JobQueue.cancel` restricted to the looked-up job (`none` = unknown id)
and its cancel event (`Bool` = the event's set-state).  Returns the updated
job and event together with the `(bool, str)` pair the method returns. -/
def cancel (job : Option Job) (ev : Bool) (now : Nat) :
    (Option Job × Bool) × (Bool × String) :=
  match job with
  | none => ((none, ev), (false, "not found"))
  | some j =>
    if j.status.isTerminal then ((some j, ev), (true, statusStr j.status))
    else
      let j1 := { j with cancel_requested := true }
      if j1.status = .queued then
        ((some { j1 with status := .cancelled, finished_at := some now, error := none },
          true), (true, "ok"))
      else
        ((some j1, true), (true, "ok"))

/-- The dequeue step of `JobQueue._worker` (lines 355-364): a missing or
already-`cancelled` job is skipped without invoking the runner; otherwise
the job is marked `running` and the runner is invoked.  The `Bool` reports
whether the runner gets invoked. -/
def workerBegin (job : Option Job) (now : Nat) : Option Job × Bool :=
  match job with
  | none => (none, false)
  | some j =>
    if j.status = .cancelled then (some j, false)
    else
      (some { j with status := .running, started_at := some now,
                     error := none, result := none }, true)

/-- The observable outcome of invoking a runner: a normal return value, a
raised `CancelledError(msg)`, or any other exception with `str(e) = msg`. -/
inductive RunnerOutcome where
  | ok (v : String)
  | cancelledErr (msg : String)
  | otherErr (msg : String)
deriving DecidableEq, Repr

/-- The completion step of `JobQueue._worker` (the `try/except CancelledError/
except Exception` arms, lines 383-409): maps the runner outcome onto the
job's terminal fields. -/
def workerFinish (job : Option Job) (o : RunnerOutcome) (now : Nat)
    (logPath : Option String) (logBytes : Nat) : Option Job :=
  match job with
  | none => none
  | some j =>
    match o with
    | .ok v =>
      some { j with status := .success, result := some v, finished_at := some now,
                    log_path := logPath, log_bytes := logBytes }
    | .cancelledErr m =>
      some { j with status := .cancelled, error := some m, finished_at := some now,
                    log_path := logPath, log_bytes := logBytes }
    | .otherErr m =>
      some { j with status := .failed, error := some m, finished_at := some now,
                    log_path := logPath, log_bytes := logBytes }

/-- `check_cancelled()`: raises `CancelledError("Job cancelled")` when the
thread-local cancel event exists and is set (`Except.error` = raise). -/
def check_cancelled (cancel_event : Option Bool) : Except String Unit :=
  match cancel_event with
  | some true => Except.error "Job cancelled"
  | _ => Except.ok ()

/-- The job context captured by `capture_job_context()`: the three
thread-local slots `job_id`, `cancel_event`, `log_file`.  A log file handle
is modelled by its path. -/
structure JobCtx where
  job_id : Option String
  cancel_event : Option Bool
  log_file : Option String
deriving DecidableEq, Repr

/-- `(ctx or {}).get(...)`: a missing context behaves as an empty dict. -/
def ctxGet (ctx : Option JobCtx) : JobCtx :=
  match ctx with
  | none => ⟨none, none, none⟩
  | some c => c

/-- The thread-local storage `_TLS`: the three job-context slots plus
whatever other thread-local state (`other`) the calling thread carries. -/
structure TLS (O : Type) where
  job_id : Option String
  cancel_event : Option Bool
  log_file : Option String
  other : O
deriving DecidableEq, Repr

/-- `run_in_job_context(ctx, fn, ...)`: saves the three slots, installs the
context, runs `fn` (modelled as a state transformer that returns normally or
raises, `Except.error` = raise), and restores the saved slots in a
`finally` block, re-raising any exception. -/
def run_in_job_context {O E A : Type} (ctx : Option JobCtx)
    (fn : TLS O → TLS O × Except E A) (tls : TLS O) : TLS O × Except E A :=
  let prev_job_id := tls.job_id
  let prev_cancel_event := tls.cancel_event
  let prev_log_file := tls.log_file
  let installed : TLS O :=
    { tls with job_id := (ctxGet ctx).job_id,
               cancel_event := (ctxGet ctx).cancel_event,
               log_file := (ctxGet ctx).log_file }
  let out := fn installed
  ({ out.1 with job_id := prev_job_id, cancel_event := prev_cancel_event,
                log_file := prev_log_file },
   out.2)

/-- Lane normalisation in `JobQueue.__init__`: strip every configured lane
name, drop blanks, fall back to `["default"]` when nothing is left (or when
no lane list was given). -/
def initLanes (lanes : Option (List String)) : List String :=
  match lanes with
  | none => ["default"]
  | some ls =>
    let cleaned := (ls.map pyStrip).filter (fun s => s ≠ "")
    if cleaned = [] then ["default"] else cleaned

/-- Lane selection in `JobQueue.enqueue`:
`lane = str(lane or "").strip() or "default"`, then reroute to the first
configured lane when the result is not a configured queue. -/
def enqueueLane (lanes : List String) (lane : Option String) : String :=
  let l := pyStrip (pyOr lane "")
  let l1 := if l = "" then "default" else l
  if l1 ∈ lanes then l1 else lanes.headD ""

/-- The queue state touched by `enqueue`: configured lanes, the job table,
the insertion order, and the per-lane FIFOs of queued job ids. -/
structure QState where
  lanes : List String
  jobs : List (String × Job)
  order : List String
  queues : String → List String

/-- `JobQueue.enqueue`: chooses the lane, builds the fresh job dict in
status `queued`, registers it, and appends its id to the chosen lane's
FIFO.  `freshId` stands for `uuid.uuid4().hex`, used when `job_id` is
missing or empty. -/
def enqueue (st : QState) (mode sku stem : String)
    (options : List (String × String)) (prompt : Option String)
    (lane : Option String) (job_id : Option String) (freshId : String)
    (now : Nat) : QState × String :=
  let lane1 := enqueueLane st.lanes lane
  let jid := pyOr job_id freshId
  let job : Job :=
    { id := jid, mode := mode, sku := sku, stem := stem, lane := lane1,
      prompt := prompt, options := options, status := .queued,
      cancel_requested := false, created_at := now, started_at := none,
      finished_at := none, result := none, error := none,
      log_available := true, log_truncated := false, log_path := none,
      log_bytes := 0 }
  ({ st with jobs := st.jobs ++ [(jid, job)], order := st.order ++ [jid],
             queues := fun l => if l = lane1 then st.queues l ++ [jid]
                                else st.queues l },
   jid)

/-- The dict returned by `JobQueue.get_log_chunk` on the file-backed path:
the decoded bytes, the byte range `[fromOff, toOff)`, the file's total size
and its path are all reported.  Bytes are modelled as code points. -/
structure LogChunk where
  log : List Char
  fromOff : Nat
  toOff : Nat
  total : Nat
deriving DecidableEq, Repr

/-- The `tail_bytes` arm of the start-offset computation:
`max(0, size - int(tail_bytes))` when `tail_bytes` is given and positive,
else 0 (natural subtraction supplies the `max`). -/
def chunkStartTail (size : Nat) (tail_bytes : Option Int) : Nat :=
  match tail_bytes with
  | some tb => if 0 < tb then size - tb.toNat else 0
  | none => 0

/-- `JobQueue.get_log_chunk` for a known job with an existing log file whose
current content is `data`: pick the start offset (`from_bytes` wins when
given and non-negative, else the tail rule), read from there to the end,
and report the live size as `total`. -/
def get_log_chunk (data : List Char) (from_bytes tail_bytes : Option Int) :
    LogChunk :=
  let size := data.length
  let start :=
    match from_bytes with
    | some fb => if 0 ≤ fb then min fb.toNat size else chunkStartTail size tail_bytes
    | none => chunkStartTail size tail_bytes
  let b := data.drop start
  ⟨b, start, start + b.length, size⟩


/-! ## `image_studio_worker.py` -/

/-- `_stem_from_name`: last path segment of the name with its extension
removed when the final dot is not at position 0. -/
def _stem_from_name (name : String) : String :=
  if name = "" then ""
  else
    let base : List Char := (splitOnChar '/' name.data).getLastD []
    match rfindPos base '.' with
    | some i => if 0 < i then ⟨base.take i⟩ else ⟨base⟩
    | none => ⟨base⟩

/-- `_is_main_stem`: the stem's trailing underscore-separated segment
equals `"1"` (and an empty stem is never main). -/
def _is_main_stem (stem : String) : Bool :=
  if stem = "" then false
  else ((splitOnChar '_' stem.data).getLastD []) = ['1']

/-- One entry of a group's source list: a dict with optional `name`, `url`
and `stem` keys. -/
structure SrcItem where
  name : Option String
  url : Option String
  stem : Option String
deriving DecidableEq, Repr

/-- The sort key `str(s.get("name") or s.get("url") or "")`. -/
def itemKey (it : SrcItem) : String :=
  pyOr it.name (pyOr it.url "")

/-- `item.get("stem") or _stem_from_name(str(item.get("name") or ""))`. -/
def stemValue (it : SrcItem) : String :=
  pyOr it.stem (_stem_from_name (pyOr it.name ""))

/-- The comparison Python's stable `sorted(..., key=...)` realises:
ascending lexicographic order of the items' keys. -/
def keyLe (a b : SrcItem) : Prop := itemKey a ≤ itemKey b

instance : DecidableRel keyLe :=
  fun a b => inferInstanceAs (Decidable (itemKey a ≤ itemKey b))

instance : IsTotal SrcItem keyLe := ⟨fun a b => le_total (itemKey a) (itemKey b)⟩

instance : IsTrans SrcItem keyLe := ⟨fun _ _ _ hab hbc => le_trans hab hbc⟩

instance : IsRefl SrcItem keyLe := ⟨fun a => le_refl (itemKey a)⟩

/-- `sorted(sources, key=lambda s: str(s.get("name") or s.get("url") or ""))`
(insertion sort is stable, like Python's sort). -/
def sortedSources (sources : List SrcItem) : List SrcItem :=
  List.insertionSort keyLe sources

/-- Whether an item is recognised as the main image. -/
def isMainItem (it : SrcItem) : Bool :=
  _is_main_stem (stemValue it)

/-- The head-selection loop shared by `_process_sku_main` and the stage-2
collection: first sorted item whose stem is a main stem, else the first
sorted item. -/
def pickHead (sources : List SrcItem) : Option SrcItem :=
  match (sortedSources sources).find? isMainItem with
  | some h => some h
  | none => (sortedSources sources).head?

/-- A stage-1 per-group result as consumed by stage 2: the group name, the
`ok` flag, and the `sources` list carried along for secondary processing. -/
structure MainResult where
  sku : String
  ok : Bool
  sources : List SrcItem
deriving DecidableEq, Repr

/-- `_process_sku_main` with the image-processing call abstracted by the
oracle `succeeds` (whether processing the group's main image succeeds): an
empty source list is an explicit failure, otherwise the result's `ok` flag
is the processing outcome and `sources` is passed along. -/
def _process_sku_main (succeeds : String → Bool) (sku : String)
    (sources : List SrcItem) : MainResult :=
  if sources = [] then ⟨sku, false, []⟩
  else if succeeds sku then ⟨sku, true, sources⟩
  else ⟨sku, false, sources⟩

/-- The stage-1 `main_results` list of `_process_batch_concurrent`: with the
main stage enabled, every group is processed by `_process_sku_main`;
with the main stage skipped every group passes through as an `ok` result
with its sources unchanged (lines 390-393). -/
def stage1Results (do_main : Bool) (groups : List (String × List SrcItem))
    (succeeds : String → Bool) : List MainResult :=
  if do_main then groups.map (fun g => _process_sku_main succeeds g.1 g.2)
  else groups.map (fun g => ⟨g.1, true, g.2⟩)

/-- The stage-2 per-group item collection: all sorted items except the one
the head-selection loop picked (`item is head` skips exactly the found
occurrence). -/
def secondaryItems (sources : List SrcItem) : List SrcItem :=
  let ss := sortedSources sources
  match ss.findIdx? isMainItem with
  | some i => ss.eraseIdx i
  | none => ss.drop 1

/-- The stage-2 `secondary_tasks` list (lines 400-441): only results with a
truthy `ok` and a non-empty `sources` list contribute, each contributing
its secondary items tagged with the group name and the style prompt
(abstracted by the oracle `styleOf`). -/
def secondaryTasks (main_results : List MainResult)
    (styleOf : String → String) : List (String × SrcItem × String) :=
  main_results.flatMap (fun r =>
    if r.ok then
      if r.sources = [] then []
      else (secondaryItems r.sources).map (fun it => (r.sku, it, styleOf r.sku))
    else [])

/-- The clamp applied to each stage's requested worker count in
`run_image_studio_job` (lines 637-659): non-positive requests fall back to
the configured default, then the value is clamped to at least 1 and to the
hard ceiling 60. -/
def clampWorkers (requested default_workers : Int) : Int :=
  let w := if requested ≤ 0 then default_workers else requested
  let w1 := if w < 1 then 1 else w
  if w1 > 60 then 60 else w1

/-- The effective main-stage pool bound: the clamped request, further capped
by the number of groups (`if max_workers_main > len(sku_list)`). -/
def effectiveMainWorkers (requested default_workers : Int) (numSkus : Nat) :
    Int :=
  let w := clampWorkers requested default_workers
  if w > numSkus then numSkus else w

/-- The effective stage-2 pool bound:
`min(max_workers_secondary, len(secondary_tasks))` (line 444). -/
def effectiveSecondaryWorkers (requested default_workers : Int)
    (numTasks : Nat) : Int :=
  min (clampWorkers requested default_workers) numTasks

/-! ## Claim theorems -/

/-- A concrete queued job used to instantiate hypотheses. -/
def sampleJob : Job :=
  { id := "j1", mode := "folder_generate", sku := "SKU1", stem := "SKU1_1",
    lane := "image", prompt := none, options := [], status := .queued,
    cancel_requested := false, created_at := 10, started_at := none,
    finished_at := none, result := none, error := none, log_available := true,
    log_truncated := false, log_path := none, log_bytes := 0 }

/-- C1: when a worker invokes a job's runner, a normal return value `v`
makes the job `success` with `result = v` and `finished_at` stamped; a
raised `CancelledError` makes it `cancelled` with the signal's message as
`error`; any other exception makes it `failed` with `str(e)` as `error`. -/
theorem worker_outcome_terminal_mapping (j : Job) (t0 t1 : Nat)
    (lp : Option String) (lb : Nat) (o : RunnerOutcome)
    (h : j.status ≠ .cancelled) :
    ∃ j1 jf, workerBegin (some j) t0 = (some j1, true) ∧
      workerFinish (some j1) o t1 lp lb = some jf ∧
      jf.finished_at = some t1 ∧
      (∀ v, o = .ok v → jf.status = .success ∧ jf.result = some v) ∧
      (∀ m, o = .cancelledErr m → jf.status = .cancelled ∧ jf.error = some m) ∧
      (∀ m, o = .otherErr m → jf.status = .failed ∧ jf.error = some m) := by
  have hb : workerBegin (some j) t0 =
      (some { j with status := .running, started_at := some t0,
                     error := none, result := none }, true) := by
    simp [workerBegin, h]
  cases o with
  | ok v =>
    refine ⟨_, _, hb, rfl, rfl, ?_, ?_, ?_⟩
    · intro v' hv
      injection hv with h1
      subst h1
      exact ⟨rfl, rfl⟩
    · intro m hm
      exact nomatch hm
    · intro m hm
      exact nomatch hm
  | cancelledErr m =>
    refine ⟨_, _, hb, rfl, rfl, ?_, ?_, ?_⟩
    · intro v hv
      exact nomatch hv
    · intro m' hm
      injection hm with h1
      subst h1
      exact ⟨rfl, rfl⟩
    · intro m' hm
      exact nomatch hm
  | otherErr m =>
    refine ⟨_, _, hb, rfl, rfl, ?_, ?_, ?_⟩
    · intro v hv
      exact nomatch hv
    · intro m' hm
      exact nomatch hm
    · intro m' hm
      injection hm with h1
      subst h1
      exact ⟨rfl, rfl⟩

theorem worker_outcome_terminal_mapping_witness :
    (sampleJob.status ≠ .cancelled) ∧
    (∃ j1 jf, workerBegin (some sampleJob) 11 = (some j1, true) ∧
      workerFinish (some j1) (.ok "done") 12 (some "job_logs/j1.log") 3 = some jf ∧
      jf.finished_at = some 12 ∧
      (∀ v, RunnerOutcome.ok "done" = .ok v → jf.status = .success ∧ jf.result = some v) ∧
      (∀ m, RunnerOutcome.ok "done" = .cancelledErr m → jf.status = .cancelled ∧ jf.error = some m) ∧
      (∀ m, RunnerOutcome.ok "done" = .otherErr m → jf.status = .failed ∧ jf.error = some m)) :=
  ⟨by decide,
   worker_outcome_terminal_mapping sampleJob 11 12 (some "job_logs/j1.log") 3
     (.ok "done") (by decide)⟩

/-- C2: cancelling a `queued` job makes it terminal `cancelled` directly
(with `finished_at` stamped), and the worker that later dequeues the pair
skips execution entirely: `workerBegin` reports the runner as not invoked
and leaves the job untouched. -/
theorem cancel_queued_skips_runner (j : Job) (ev : Bool) (tc tw : Nat)
    (h : j.status = .queued) :
    ∃ j', cancel (some j) ev tc = ((some j', true), (true, "ok")) ∧
      j'.status = .cancelled ∧ j'.finished_at = some tc ∧
      workerBegin (some j') tw = (some j', false) := by
  refine ⟨{ j with cancel_requested := true, status := .cancelled, finished_at := some tc, error := none }, ?_, rfl, rfl, ?_⟩
  · simp [cancel, h, Status.isTerminal]
  · simp [workerBegin]

theorem cancel_queued_skips_runner_witness :
    (sampleJob.status = .queued) ∧
    (∃ j', cancel (some sampleJob) false 20 = ((some j', true), (true, "ok")) ∧
      j'.status = .cancelled ∧ j'.finished_at = some 20 ∧
      workerBegin (some j') 21 = (some j', false)) :=
  ⟨by decide, cancel_queued_skips_runner sampleJob false 20 21 (by decide)⟩

/-- C3: cancelling a `running` job sets the cancel event and the job's
`cancel_requested` flag but leaves the status `running`; `check_cancelled`
on the set event raises `CancelledError("Job cancelled")`, and the job
becomes `cancelled` exactly when the runner raises that signal — a runner
that never checks finishes with its natural `success` or `failed` status. -/
theorem cancel_running_sets_token_only (j : Job) (ev : Bool) (tc tf : Nat)
    (lp : Option String) (lb : Nat) (h : j.status = .running) :
    ∃ j', cancel (some j) ev tc = ((some j', true), (true, "ok")) ∧
      j'.status = .running ∧ j'.cancel_requested = true ∧
      j'.finished_at = j.finished_at ∧
      check_cancelled (some true) = Except.error "Job cancelled" ∧
      (∀ m, ∃ jf, workerFinish (some j') (.cancelledErr m) tf lp lb = some jf ∧
        jf.status = .cancelled) ∧
      (∀ v, ∃ jf, workerFinish (some j') (.ok v) tf lp lb = some jf ∧
        jf.status = .success) ∧
      (∀ m, ∃ jf, workerFinish (some j') (.otherErr m) tf lp lb = some jf ∧
        jf.status = .failed) := by
  refine ⟨{ j with cancel_requested := true }, ?_, h, rfl, rfl, rfl,
    fun m => ⟨_, rfl, rfl⟩, fun v => ⟨_, rfl, rfl⟩, fun m => ⟨_, rfl, rfl⟩⟩
  have hterm : j.status.isTerminal = false := by
    rw [h]; rfl
  have hq : j.status ≠ Status.queued := by
    rw [h]; intro hx; cases hx
  simp [cancel, hterm, hq]

theorem cancel_running_sets_token_only_witness :
    ({ sampleJob with status := .running }.status = .running) ∧
    (∃ j', cancel (some { sampleJob with status := .running }) false 30 =
        ((some j', true), (true, "ok")) ∧
      j'.status = .running ∧ j'.cancel_requested = true ∧
      j'.finished_at = { sampleJob with status := Status.running }.finished_at ∧
      check_cancelled (some true) = Except.error "Job cancelled" ∧
      (∀ m, ∃ jf, workerFinish (some j') (.cancelledErr m) 31 none 0 = some jf ∧
        jf.status = .cancelled) ∧
      (∀ v, ∃ jf, workerFinish (some j') (.ok v) 31 none 0 = some jf ∧
        jf.status = .success) ∧
      (∀ m, ∃ jf, workerFinish (some j') (.otherErr m) 31 none 0 = some jf ∧
        jf.status = .failed)) :=
  ⟨by decide,
   cancel_running_sets_token_only { sampleJob with status := .running }
     false 30 31 none 0 (by decide)⟩

/-- C8: cancelling a job already in a terminal status (`success`, `failed`
or `cancelled`) is an idempotent no-op: it returns `handled = true` with
the existing terminal status string, leaves the cancel event alone, and
mutates no field of the job record (in particular `finished_at`). -/
theorem cancel_terminal_idempotent (j : Job) (ev : Bool) (now : Nat)
    (h : j.status = .success ∨ j.status = .failed ∨ j.status = .cancelled) :
    cancel (some j) ev now = ((some j, ev), (true, statusStr j.status)) := by
  have hterm : j.status.isTerminal = true := by
    rcases h with h | h | h <;> rw [h] <;> rfl
  simp [cancel, hterm]

theorem cancel_terminal_idempotent_witness :
    ({ sampleJob with status := .success, finished_at := some 42 }.status = .success ∨
     { sampleJob with status := .success, finished_at := some 42 }.status = .failed ∨
     { sampleJob with status := .success, finished_at := some 42 }.status = .cancelled) ∧
    cancel (some { sampleJob with status := .success, finished_at := some 42 }) false 99 =
      ((some { sampleJob with status := .success, finished_at := some 42 }, false),
       (true, statusStr { sampleJob with status := .success, finished_at := some 42 }.status)) :=
  ⟨Or.inl (by decide),
   cancel_terminal_idempotent { sampleJob with status := .success, finished_at := some 42 }
     false 99 (Or.inl (by decide))⟩

/-- C9: `run_in_job_context` restores the three thread-local job-context
slots to their exact prior values after `fn` completes — the restoration
happens in a `finally`, so it covers both a normal return and a raise
(the `Except` outcome of `fn` is arbitrary and is passed through) — and
touches no other thread-local state: the `other` slots are exactly what
`fn` left and the result is exactly what `fn` produced. -/
theorem job_context_restored {O E A : Type} (ctx : Option JobCtx)
    (fn : TLS O → TLS O × Except E A) (tls : TLS O) :
    (run_in_job_context ctx fn tls).1.job_id = tls.job_id ∧
    (run_in_job_context ctx fn tls).1.cancel_event = tls.cancel_event ∧
    (run_in_job_context ctx fn tls).1.log_file = tls.log_file ∧
    (run_in_job_context ctx fn tls).1.other =
      (fn { tls with job_id := (ctxGet ctx).job_id, cancel_event := (ctxGet ctx).cancel_event, log_file := (ctxGet ctx).log_file }).1.other ∧
    (run_in_job_context ctx fn tls).2 =
      (fn { tls with job_id := (ctxGet ctx).job_id, cancel_event := (ctxGet ctx).cancel_event, log_file := (ctxGet ctx).log_file }).2 :=
  ⟨rfl, rfl, rfl, rfl, rfl⟩

/-- A nonempty element of a list picked by `headD` is a member. -/
theorem headD_mem_of_ne_nil {α : Type} (l : List α) (d : α) (h : l ≠ []) :
    l.headD d ∈ l := by
  cases l with
  | nil => exact absurd rfl h
  | cons a t => exact List.mem_cons_self a t

/-- C10: `enqueue` never rejects a lane: a blank (empty or whitespace-only)
lane is replaced by `"default"`, a lane not among the configured queues is
rerouted to the first configured lane, the chosen lane is always a
configured one, and the job is registered in status `queued` with its id
returned and appended to the chosen lane's FIFO. -/
theorem enqueue_lane_fallback (st : QState) (mode sku stem : String)
    (options : List (String × String)) (prompt : Option String)
    (lane : Option String) (jid freshId : String) (now : Nat)
    (hlanes : st.lanes ≠ []) (hjid : jid ≠ "") :
    (pyStrip (pyOr lane "") = "" →
      enqueueLane st.lanes lane =
        (if "default" ∈ st.lanes then "default" else st.lanes.headD "")) ∧
    (pyStrip (pyOr lane "") ≠ "" → pyStrip (pyOr lane "") ∉ st.lanes →
      enqueueLane st.lanes lane = st.lanes.headD "") ∧
    enqueueLane st.lanes lane ∈ st.lanes ∧
    (enqueue st mode sku stem options prompt lane (some jid) freshId now).2 = jid ∧
    (∃ job : Job,
      (enqueue st mode sku stem options prompt lane (some jid) freshId now).1.jobs =
        st.jobs ++ [(jid, job)] ∧
      job.status = .queued ∧ job.id = jid ∧
      job.lane = enqueueLane st.lanes lane) ∧
    (enqueue st mode sku stem options prompt lane (some jid) freshId now).1.queues
        (enqueueLane st.lanes lane) =
      st.queues (enqueueLane st.lanes lane) ++ [jid] := by
  refine ⟨?_, ?_, ?_, ?_, ?_, ?_⟩
  · intro hb
    by_cases hd : "default" ∈ st.lanes
    · simp [enqueueLane, hb, hd]
    · simp [enqueueLane, hb, hd]
  · intro hb hnm
    simp [enqueueLane, hb, hnm]
  · unfold enqueueLane
    by_cases hm : (if pyStrip (pyOr lane "") = "" then "default" else pyStrip (pyOr lane "")) ∈ st.lanes
    · simp only [hm, if_true]
    · simpa [hm] using headD_mem_of_ne_nil st.lanes "" hlanes
  · simp [enqueue, pyOr, hjid]
  · have hpy : pyOr (some jid) freshId = jid := by simp [pyOr, hjid]
    refine ⟨{ id := jid, mode := mode, sku := sku, stem := stem, lane := enqueueLane st.lanes lane, prompt := prompt, options := options, status := .queued, cancel_requested := false, created_at := now, started_at := none, finished_at := none, result := none, error := none, log_available := true, log_truncated := false, log_path := none, log_bytes := 0 }, ?_, rfl, rfl, rfl⟩
    simp [enqueue, hpy]
  · simp [enqueue, pyOr, hjid]

theorem enqueue_lane_fallback_witness :
    (let st : QState := ⟨["image"], [], [], fun _ => []⟩;
     st.lanes ≠ [] ∧ ("j9" : String) ≠ "" ∧
     ((pyStrip (pyOr (some "  ") "") = "" →
        enqueueLane st.lanes (some "  ") =
          (if "default" ∈ st.lanes then "default" else st.lanes.headD "")) ∧
      (pyStrip (pyOr (some "  ") "") ≠ "" → pyStrip (pyOr (some "  ") "") ∉ st.lanes →
        enqueueLane st.lanes (some "  ") = st.lanes.headD "") ∧
      enqueueLane st.lanes (some "  ") ∈ st.lanes ∧
      (enqueue st "m" "s" "t" [] none (some "  ") (some "j9") "fresh" 5).2 = "j9" ∧
      (∃ job : Job,
        (enqueue st "m" "s" "t" [] none (some "  ") (some "j9") "fresh" 5).1.jobs =
          st.jobs ++ [("j9", job)] ∧
        job.status = .queued ∧ job.id = "j9" ∧
        job.lane = enqueueLane st.lanes (some "  ")) ∧
      (enqueue st "m" "s" "t" [] none (some "  ") (some "j9") "fresh" 5).1.queues
          (enqueueLane st.lanes (some "  ")) =
        st.queues (enqueueLane st.lanes (some "  ")) ++ ["j9"])) :=
  ⟨by decide, by decide,
   enqueue_lane_fallback ⟨["image"], [], [], fun _ => []⟩ "m" "s" "t" [] none
     (some "  ") "j9" "fresh" 5 (by decide) (by decide)⟩

/-- The in-memory fallback of `JobQueue.get_log_chunk` (lines 211-216),
taken when the job has no readable log file: the buffered text, sliced only
by a positive `tail_bytes` smaller than its length; `from` is always 0 and
`total` is the length of the returned text. -/
def get_log_chunk_fallback (buffer : List Char) (tail_bytes : Option Int) :
    LogChunk :=
  let txt :=
    match tail_bytes with
    | some tb =>
      if 0 < tb ∧ buffer.length > tb.toNat then
        buffer.drop (buffer.length - tb.toNat)
      else buffer
    | none => buffer
  ⟨txt, 0, txt.length, txt.length⟩

/-- `JobQueue.get_log_chunk` for a known job, both paths: the file-backed
byte-range read when the log file exists (`fileData = some data` with
`data` its live content), else the in-memory fallback on the job's buffered
log. -/
def get_log_chunk_full (fileData : Option (List Char)) (buffer : List Char)
    (from_bytes tail_bytes : Option Int) : LogChunk :=
  match fileData with
  | some data => get_log_chunk data from_bytes tail_bytes
  | none => get_log_chunk_fallback buffer tail_bytes

/-- Dropping `min n (length l)` elements is the same as dropping `n`. -/
theorem drop_min_length {α : Type} (l : List α) (n : Nat) :
    l.drop (min n l.length) = l.drop n := by
  rcases le_total n l.length with h | h
  · rw [min_eq_left h]
  · rw [min_eq_right h, List.drop_length, List.drop_eq_nil_of_le h]

/-- On the file-backed path `get_log_chunk` returns a byte-range slice of
the live log file: the reported `total` is always the file's current size;
with `from_bytes` given (a non-negative offset `n`) the slice is the bytes
from offset `n` to the end; with only `tail_bytes = t > 0` given it is the
last `t` bytes; and with neither given it is the whole log. -/
theorem log_chunk_byte_range (data : List Char)
    (from_bytes tail_bytes : Option Int) :
    (get_log_chunk data from_bytes tail_bytes).total = data.length ∧
    (∀ n : Nat, from_bytes = some (n : Int) →
      (get_log_chunk data from_bytes tail_bytes).log = data.drop n) ∧
    (from_bytes = none → ∀ t : Nat, 0 < t → tail_bytes = some (t : Int) →
      (get_log_chunk data from_bytes tail_bytes).log =
        data.drop (data.length - t)) ∧
    (from_bytes = none → tail_bytes = none →
      (get_log_chunk data from_bytes tail_bytes).log = data) := by
  refine ⟨rfl, ?_, ?_, ?_⟩
  · intro n hn
    subst hn
    have h0 : (0 : Int) ≤ (n : Int) := Int.natCast_nonneg n
    simp only [get_log_chunk, h0, if_true, Int.toNat_natCast]
    exact drop_min_length data n
  · intro hf t ht htt
    subst hf
    subst htt
    have ht' : (0 : Int) < (t : Int) := by exact_mod_cast ht
    simp only [get_log_chunk, chunkStartTail, ht', if_true, Int.toNat_natCast]
  · intro hf htt
    subst hf
    subst htt
    simp [get_log_chunk, chunkStartTail]

theorem log_chunk_byte_range_witness :
    (get_log_chunk "ABC".data (some 0) none).log = "ABC".data.drop 0 ∧
    (get_log_chunk "ABC".data none (some 1)).log =
      "ABC".data.drop ("ABC".data.length - 1) ∧
    (get_log_chunk "ABC".data none none).log = "ABC".data ∧
    (get_log_chunk "ABC".data none (some 1)).total =
      "A".data.length + "B".data.length + "C".data.length ∧
    (get_log_chunk "ABC".data (some 0) none).log = ("A" ++ "B" ++ "C").data ∧
    (get_log_chunk "ABC".data none (some 1)).log = "C".data :=
  ⟨(log_chunk_byte_range "ABC".data (some 0) none).2.1 0 (by decide),
   (log_chunk_byte_range "ABC".data none (some 1)).2.2.1 rfl 1 (by decide) (by decide),
   (log_chunk_byte_range "ABC".data none none).2.2.2 rfl rfl,
   by decide, by decide, by decide⟩

/-- C7: the effective worker-pool bound of each stage is at least 1, at
most the hard ceiling 60, and at most the number of tasks in that stage
(groups for stage 1, secondary tasks for stage 2). -/
theorem worker_pool_bounds (rm rs d : Int) (nSkus nTasks : Nat)
    (h1 : 1 ≤ nSkus) (h2 : 1 ≤ nTasks) :
    (1 ≤ effectiveMainWorkers rm d nSkus ∧
     effectiveMainWorkers rm d nSkus ≤ 60 ∧
     effectiveMainWorkers rm d nSkus ≤ (nSkus : Int)) ∧
    (1 ≤ effectiveSecondaryWorkers rs d nTasks ∧
     effectiveSecondaryWorkers rs d nTasks ≤ 60 ∧
     effectiveSecondaryWorkers rs d nTasks ≤ (nTasks : Int)) := by
  simp only [effectiveMainWorkers, effectiveSecondaryWorkers, clampWorkers]
  refine ⟨⟨?_, ?_, ?_⟩, ?_, ?_, ?_⟩ <;> split_ifs <;> omega

theorem worker_pool_bounds_witness :
    (1 ≤ (3 : Nat)) ∧ (1 ≤ (5 : Nat)) ∧
    ((1 ≤ effectiveMainWorkers 100 30 3 ∧
      effectiveMainWorkers 100 30 3 ≤ 60 ∧
      effectiveMainWorkers 100 30 3 ≤ ((3 : Nat) : Int)) ∧
     (1 ≤ effectiveSecondaryWorkers 7 30 5 ∧
      effectiveSecondaryWorkers 7 30 5 ≤ 60 ∧
      effectiveSecondaryWorkers 7 30 5 ≤ ((5 : Nat) : Int))) ∧
    effectiveMainWorkers 100 30 3 = 3 :=
  ⟨by decide, by decide,
   worker_pool_bounds 100 7 30 3 5 (by decide) (by decide), by decide⟩

/-- A `MainResult` with a truthy `ok` produced by `_process_sku_main` comes
from a successful run on a non-empty source list, and it carries the group
name and the unchanged sources. -/
theorem process_sku_main_ok (succeeds : String → Bool) (sku : String)
    (sources : List SrcItem)
    (h : (_process_sku_main succeeds sku sources).ok = true) :
    succeeds sku = true ∧ sources ≠ [] ∧
    (_process_sku_main succeeds sku sources).sku = sku ∧
    (_process_sku_main succeeds sku sources).sources = sources := by
  by_cases h1 : sources = []
  · simp [_process_sku_main, h1] at h
  · by_cases h2 : succeeds sku = true
    · refine ⟨h2, h1, ?_, ?_⟩ <;> simp [_process_sku_main, h1, h2]
    · simp [_process_sku_main, h1, h2] at h

/-- Results with a falsy `ok` never contribute to `secondaryTasks`. -/
theorem secondaryTasks_filter_ok (rs : List MainResult)
    (styleOf : String → String) :
    secondaryTasks rs styleOf =
      secondaryTasks (rs.filter (fun r => r.ok)) styleOf := by
  induction rs with
  | nil => rfl
  | cons r rs ih =>
    by_cases h : r.ok
    · simp only [secondaryTasks, List.filter_cons, h, if_true,
        List.flatMap_cons] at ih ⊢
      rw [ih]
    · simp only [secondaryTasks, List.filter_cons, h, Bool.false_eq_true,
        if_false, List.flatMap_cons, eq_self_iff_true] at ih ⊢
      simp only [h, Bool.false_eq_true, if_false, List.nil_append]
      exact ih

/-- Every secondary task originates from a result with a truthy `ok` flag
carrying the task's group name. -/
theorem mem_secondaryTasks (rs : List MainResult) (styleOf : String → String)
    (t : String × SrcItem × String) (ht : t ∈ secondaryTasks rs styleOf) :
    ∃ r ∈ rs, r.ok = true ∧ r.sku = t.1 := by
  unfold secondaryTasks at ht
  rw [List.mem_flatMap] at ht
  obtain ⟨r, hr, htr⟩ := ht
  refine ⟨r, hr, ?_⟩
  by_cases hok : r.ok
  · refine ⟨hok, ?_⟩
    simp only [hok, if_true] at htr
    by_cases hsrc : r.sources = []
    · simp [hsrc] at htr
    · simp only [hsrc, if_false] at htr
      obtain ⟨it, _, heq⟩ := List.mem_map.mp htr
      rw [← heq]
  · simp [hok] at htr

/-- C5: with the main stage enabled, the stage-2 secondary tasks are built
only from groups whose stage-1 outcome was successful — the task list is
unchanged by restricting to `ok` results, and a group whose stage-1
outcome failed contributes exactly zero stage-2 tasks; with the main stage
skipped, every group passes through to stage 2 unchanged as a successful
result. -/
theorem stage2_only_from_successful_groups
    (groups : List (String × List SrcItem)) (succeeds : String → Bool)
    (styleOf : String → String) (g : String × List SrcItem)
    (hg : g ∈ groups) (hfail : succeeds g.1 = false) :
    secondaryTasks (stage1Results true groups succeeds) styleOf =
      secondaryTasks
        ((stage1Results true groups succeeds).filter (fun r => r.ok)) styleOf ∧
    (secondaryTasks (stage1Results true groups succeeds) styleOf).filter
      (fun t => t.1 = g.1) = [] ∧
    stage1Results false groups succeeds =
      groups.map (fun q => ⟨q.1, true, q.2⟩) := by
  refine ⟨secondaryTasks_filter_ok _ _, ?_, by simp [stage1Results]⟩
  rw [List.filter_eq_nil_iff]
  intro t ht
  simp only [decide_eq_true_eq]
  intro hteq
  obtain ⟨r, hr, hok, hsku⟩ := mem_secondaryTasks _ _ _ ht
  simp only [stage1Results, if_true, List.mem_map] at hr
  obtain ⟨q, hq, hrq⟩ := hr
  rw [← hrq] at hok hsku
  obtain ⟨hsucc, -, hsk, -⟩ := process_sku_main_ok succeeds q.1 q.2 hok
  rw [hsk] at hsku
  rw [hsku, hteq] at hsucc
  rw [hsucc] at hfail
  cases hfail

theorem stage2_only_from_successful_groups_witness :
    ((("B" : String), ([⟨some "B_1.jpg", none, none⟩] : List SrcItem)) ∈
      ([("A", [⟨some "A_1.jpg", none, none⟩]),
        ("B", [⟨some "B_1.jpg", none, none⟩])] :
        List (String × List SrcItem))) ∧
    ((fun s => s == "A") ("B", ([⟨some "B_1.jpg", none, none⟩] : List SrcItem)).1 = false) ∧
    (secondaryTasks
        (stage1Results true
          [("A", [⟨some "A_1.jpg", none, none⟩]),
           ("B", [⟨some "B_1.jpg", none, none⟩])] (fun s => s == "A"))
        (fun _ => "") =
      secondaryTasks
        ((stage1Results true
            [("A", [⟨some "A_1.jpg", none, none⟩]),
             ("B", [⟨some "B_1.jpg", none, none⟩])] (fun s => s == "A")).filter
          (fun r => r.ok))
        (fun _ => "") ∧
    (secondaryTasks
        (stage1Results true
          [("A", [⟨some "A_1.jpg", none, none⟩]),
           ("B", [⟨some "B_1.jpg", none, none⟩])] (fun s => s == "A"))
        (fun _ => "")).filter
      (fun t => t.1 = ("B", ([⟨some "B_1.jpg", none, none⟩] : List SrcItem)).1) = [] ∧
    stage1Results false
        [("A", [⟨some "A_1.jpg", none, none⟩]),
         ("B", [⟨some "B_1.jpg", none, none⟩])] (fun s => s == "A") =
      [("A", [⟨some "A_1.jpg", none, none⟩]),
       ("B", [⟨some "B_1.jpg", none, none⟩])].map (fun q => ⟨q.1, true, q.2⟩)) :=
  ⟨by decide, by decide,
   stage2_only_from_successful_groups
     [("A", [⟨some "A_1.jpg", none, none⟩]),
      ("B", [⟨some "B_1.jpg", none, none⟩])]
     (fun s => s == "A") (fun _ => "")
     ("B", [⟨some "B_1.jpg", none, none⟩]) (by decide) (by decide)⟩

/-- In a key-sorted list, the first item satisfying `p` has a key no larger
than any item satisfying `p`. -/
theorem sorted_find?_min {p : SrcItem → Bool} :
    ∀ {l : List SrcItem}, List.Sorted keyLe l → ∀ {a : SrcItem},
      l.find? p = some a → ∀ b ∈ l, p b = true → keyLe a b := by
  intro l
  induction l with
  | nil =>
    intro _ a hf
    cases hf
  | cons x xs ih =>
    intro hs a hf b hb hpb
    rw [List.sorted_cons] at hs
    by_cases hp : p x = true
    · rw [List.find?_cons_of_pos xs hp] at hf
      injection hf with hax
      subst hax
      rcases List.mem_cons.mp hb with rfl | hb'
      · exact le_refl _
      · exact hs.1 b hb'
    · rw [List.find?_cons_of_neg xs hp] at hf
      rcases List.mem_cons.mp hb with rfl | hb'
      · exact absurd hpb hp
      · exact ih hs.2 hf b hb' hpb

/-- In a key-sorted list, the head's key is no larger than any member's. -/
theorem sorted_head_min {x : SrcItem} {xs : List SrcItem}
    (hs : List.Sorted keyLe (x :: xs)) : ∀ b ∈ x :: xs, keyLe x b := by
  rw [List.sorted_cons] at hs
  intro b hb
  rcases List.mem_cons.mp hb with rfl | hb'
  · exact le_refl _
  · exact hs.1 b hb'

/-- C6: for a non-empty source list, `pickHead` selects exactly one item of
the list: when some item's stem has trailing segment `"1"`, the selected
item is such an item and is first in lexicographic key (name/URL) order
among them; when no item matches, the selected item is the
lexicographically-first item of the group. -/
theorem main_item_selection (sources : List SrcItem) (hne : sources ≠ []) :
    ∃ head, pickHead sources = some head ∧ head ∈ sources ∧
      ((∃ it ∈ sources, isMainItem it = true) →
        isMainItem head = true ∧
        ∀ it ∈ sources, isMainItem it = true → itemKey head ≤ itemKey it) ∧
      ((∀ it ∈ sources, isMainItem it = false) →
        ∀ it ∈ sources, itemKey head ≤ itemKey it) := by
  have hperm : (sortedSources sources).Perm sources :=
    List.perm_insertionSort keyLe sources
  have hsorted : List.Sorted keyLe (sortedSources sources) :=
    List.sorted_insertionSort keyLe sources
  cases hfind : (sortedSources sources).find? isMainItem with
  | some h =>
    have hmem : h ∈ sources := hperm.mem_iff.mp (List.mem_of_find?_eq_some hfind)
    have hmain : isMainItem h = true := List.find?_some hfind
    refine ⟨h, ?_, hmem, ?_, ?_⟩
    · simp [pickHead, hfind]
    · intro _
      refine ⟨hmain, ?_⟩
      intro it hit hmit
      exact sorted_find?_min hsorted hfind it (hperm.mem_iff.mpr hit) hmit
    · intro hno
      rw [hno h hmem] at hmain
      cases hmain
  | none =>
    have hssne : sortedSources sources ≠ [] := by
      intro h0
      rw [h0] at hperm
      exact hne hperm.symm.eq_nil
    obtain ⟨x, xs, hxx⟩ := List.exists_cons_of_ne_nil hssne
    have hfind' : List.find? isMainItem (x :: xs) = none := by
      rw [← hxx]
      exact hfind
    refine ⟨x, ?_, ?_, ?_, ?_⟩
    · simp [pickHead, hxx, hfind']
    · refine hperm.mem_iff.mp ?_
      rw [hxx]
      exact List.mem_cons_self x xs
    · rintro ⟨it, hit, hmit⟩
      have hn := List.find?_eq_none.mp hfind it (hperm.mem_iff.mpr hit)
      exact absurd hmit hn
    · intro _ it hit
      have hmem' : it ∈ x :: xs := by
        rw [← hxx]
        exact hperm.mem_iff.mpr hit
      have hx : List.Sorted keyLe (x :: xs) := by
        rw [← hxx]
        exact hsorted
      exact sorted_head_min hx it hmem'

theorem main_item_selection_witness :
    (([⟨some "SKU1_2.jpg", none, none⟩, ⟨some "SKU1_1.jpg", none, none⟩,
       ⟨some "SKU1_3.jpg", none, none⟩] : List SrcItem) ≠ []) ∧
    (∃ head, pickHead [⟨some "SKU1_2.jpg", none, none⟩,
        ⟨some "SKU1_1.jpg", none, none⟩,
        ⟨some "SKU1_3.jpg", none, none⟩] = some head ∧
      head ∈ ([⟨some "SKU1_2.jpg", none, none⟩, ⟨some "SKU1_1.jpg", none, none⟩,
        ⟨some "SKU1_3.jpg", none, none⟩] : List SrcItem) ∧
      ((∃ it ∈ ([⟨some "SKU1_2.jpg", none, none⟩, ⟨some "SKU1_1.jpg", none, none⟩,
          ⟨some "SKU1_3.jpg", none, none⟩] : List SrcItem), isMainItem it = true) →
        isMainItem head = true ∧
        ∀ it ∈ ([⟨some "SKU1_2.jpg", none, none⟩, ⟨some "SKU1_1.jpg", none, none⟩,
          ⟨some "SKU1_3.jpg", none, none⟩] : List SrcItem),
          isMainItem it = true → itemKey head ≤ itemKey it) ∧
      ((∀ it ∈ ([⟨some "SKU1_2.jpg", none, none⟩, ⟨some "SKU1_1.jpg", none, none⟩,
          ⟨some "SKU1_3.jpg", none, none⟩] : List SrcItem), isMainItem it = false) →
        ∀ it ∈ ([⟨some "SKU1_2.jpg", none, none⟩, ⟨some "SKU1_1.jpg", none, none⟩,
          ⟨some "SKU1_3.jpg", none, none⟩] : List SrcItem),
          itemKey head ≤ itemKey it)) ∧
    pickHead [⟨some "SKU1_2.jpg", none, none⟩, ⟨some "SKU1_1.jpg", none, none⟩,
      ⟨some "SKU1_3.jpg", none, none⟩] = some ⟨some "SKU1_1.jpg", none, none⟩ := by
  have happ := main_item_selection
    [⟨some "SKU1_2.jpg", none, none⟩, ⟨some "SKU1_1.jpg", none, none⟩,
     ⟨some "SKU1_3.jpg", none, none⟩] (by decide)
  refine ⟨by decide, happ, ?_⟩
  obtain ⟨head, hpick, hmem, hmain, -⟩ := happ
  have hm := hmain ⟨⟨some "SKU1_1.jpg", none, none⟩, by decide, by decide⟩
  have hh : head = ⟨some "SKU1_1.jpg", none, none⟩ := by
    have hmem' := hmem
    simp only [List.mem_cons, List.not_mem_nil, or_false] at hmem'
    rcases hmem' with h1 | h1 | h1
    · rw [h1] at hm
      exact absurd hm.1 (by decide)
    · exact h1
    · rw [h1] at hm
      exact absurd hm.1 (by decide)
  rw [hh] at hpick
  exact hpick

/-- C4 counterexample: for a known job without a log file whose buffered
log is `"ABC"`, `get_log_chunk(from_bytes=1)` returns the whole log rather
than the bytes from offset 1, and `get_log_chunk(tail_bytes=1)` reports
`total = 1` rather than the log's live size 3 — the claimed byte-range
semantics fail on the in-memory fallback path. -/
theorem log_chunk_fallback_violates_byte_range :
    (get_log_chunk_full none "ABC".data (some 1) none).log ≠ "ABC".data.drop 1 ∧
    (get_log_chunk_full none "ABC".data none (some 1)).total ≠ "ABC".data.length := by
  constructor
  · decide
  · decide

/-- C4 (amended): for every known job with a log file, `get_log_chunk`
returns a byte-range slice of the live file — `total` is the file's current
size, `from_bytes = n ≥ 0` yields the bytes from offset `n` to the end,
otherwise `tail_bytes = t > 0` yields the last `t` bytes, and with neither
given the whole log is returned (so the `"A"+"B"+"C"` example holds there);
for a job without a log file, `from_bytes` is ignored: the whole buffered
log is returned unless `tail_bytes` is positive and smaller than the log,
in which case the last `tail_bytes` bytes, and `total` reports the length
of the returned slice instead of the full log size. -/
theorem log_chunk_byte_range_amended (data buffer : List Char)
    (from_bytes tail_bytes : Option Int) :
    (get_log_chunk_full (some data) buffer from_bytes tail_bytes).total =
      data.length ∧
    (∀ n : Nat, from_bytes = some (n : Int) →
      (get_log_chunk_full (some data) buffer from_bytes tail_bytes).log =
        data.drop n) ∧
    (from_bytes = none → ∀ t : Nat, 0 < t → tail_bytes = some (t : Int) →
      (get_log_chunk_full (some data) buffer from_bytes tail_bytes).log =
        data.drop (data.length - t)) ∧
    (from_bytes = none → tail_bytes = none →
      (get_log_chunk_full (some data) buffer from_bytes tail_bytes).log =
        data) ∧
    (∀ t : Nat, 0 < t → t < buffer.length → tail_bytes = some (t : Int) →
      (get_log_chunk_full none buffer from_bytes tail_bytes).log =
        buffer.drop (buffer.length - t)) ∧
    (tail_bytes = none →
      (get_log_chunk_full none buffer from_bytes tail_bytes).log = buffer) ∧
    (get_log_chunk_full none buffer from_bytes tail_bytes).total =
      (get_log_chunk_full none buffer from_bytes tail_bytes).log.length := by
  refine ⟨(log_chunk_byte_range data from_bytes tail_bytes).1,
    (log_chunk_byte_range data from_bytes tail_bytes).2.1,
    (log_chunk_byte_range data from_bytes tail_bytes).2.2.1,
    (log_chunk_byte_range data from_bytes tail_bytes).2.2.2, ?_, ?_, ?_⟩
  · intro t ht htlen htt
    subst htt
    have hc1 : (0 : Int) < (t : Int) := by exact_mod_cast ht
    simp only [get_log_chunk_full, get_log_chunk_fallback, Int.toNat_natCast]
    rw [if_pos ⟨hc1, htlen⟩]
  · intro htt
    subst htt
    rfl
  · cases tail_bytes with
    | none => rfl
    | some tb =>
      by_cases hc : (0 : Int) < tb ∧ buffer.length > tb.toNat
      · simp only [get_log_chunk_full, get_log_chunk_fallback, hc, if_true]
      · simp only [get_log_chunk_full, get_log_chunk_fallback, hc, if_false]

theorem log_chunk_byte_range_amended_witness :
    (get_log_chunk_full (some "ABC".data) "AB".data (some 0) none).log =
      "ABC".data.drop 0 ∧
    (get_log_chunk_full (some "ABC".data) "AB".data none (some 1)).log =
      "ABC".data.drop ("ABC".data.length - 1) ∧
    (get_log_chunk_full (some "ABC".data) "AB".data none (some 1)).total =
      "A".data.length + "B".data.length + "C".data.length ∧
    (get_log_chunk_full none "AB".data (some 0) (some 1)).log =
      "AB".data.drop ("AB".data.length - 1) ∧
    (get_log_chunk_full none "AB".data (some 0) none).log = "AB".data :=
  ⟨(log_chunk_byte_range_amended "ABC".data "AB".data (some 0) none).2.1 0
     (by decide),
   (log_chunk_byte_range_amended "ABC".data "AB".data none (some 1)).2.2.1
     rfl 1 (by decide) (by decide),
   by decide,
   (log_chunk_byte_range_amended "AB".data "AB".data (some 0) (some 1)).2.2.2.2.1
     1 (by decide) (by decide) (by decide),
   (log_chunk_byte_range_amended "AB".data "AB".data (some 0) none).2.2.2.2.2.1
     rfl⟩
